import Mathlib

/-!
Verification development for the generpc repository: a generalized JSON-RPC
2.0 HTTP server handler (dispatch engine in server.go, JSON coder in
jsoncoder.go, error model and coder registry in the coder package).

The embedding works at two levels, both translated from the source:
at the wire level, request bodies are character lists parsed by a JSON
parser mirroring the strict grammar of the Go encoding/json scanner
(numbers kept as their literal spelling, as the source decodes with
UseNumber and keeps ids as raw bytes); at the value level, the structs
jsonRequest, Request, Response and jsonResponse and the functions on them
are ported one to one.  Go panics are modelled by the PRes.panicked
constructor; fallible operations return Option.  Parse failure message
texts produced by the Go json package are abstracted by fixed placeholder
strings (no claim depends on their wording).
-/

/-- Model of a decoded generic JSON value as produced by encoding/json with
UseNumber: numbers keep their literal spelling (json.Number), objects keep
their members as an association list.  A string keeps both its decoded
content (what Go hands to the program) and the raw interior spelling of
the wire literal (what a json.RawMessage capturing the value retains),
so the byte-preserving RequestID path can be modelled faithfully. -/
inductive Json where
  | null : Json
  | bool (b : Bool) : Json
  | num (lit : String) : Json
  | str (s : String) (raw : String) : Json
  | arr (xs : List Json) : Json
  | obj (fs : List (String × Json)) : Json

/-- Left brace character, written via its code point. -/
def lbraceCh : Char := Char.ofNat 123

/-- Right brace character, written via its code point. -/
def rbraceCh : Char := Char.ofNat 125

/-- Hexadecimal digit for values below 16. -/
def hexDigit (n : Nat) : Char :=
  if n < 10 then Char.ofNat (48 + n) else Char.ofNat (87 + n)

/-- Escaping of one character inside a JSON string, mirroring the escapes
emitted by encoding/json with its default HTML escaping: quote,
backslash, the common control characters, other control characters as
unicode escapes, and the HTML-sensitive characters less-than,
greater-than, ampersand, U+2028 and U+2029 as unicode escapes. -/
def escCh (c : Char) : String :=
  if c = '\"' then "\\\""
  else if c = '\\' then "\\\\"
  else if c = '\n' then "\\n"
  else if c = '\r' then "\\r"
  else if c = '\t' then "\\t"
  else if c.toNat < 32 then
    "\\u00" ++ String.mk [hexDigit (c.toNat / 16), hexDigit (c.toNat % 16)]
  else if c = '<' then "\\u003c"
  else if c = '>' then "\\u003e"
  else if c = '&' then "\\u0026"
  else if c = Char.ofNat 8232 then "\\u2028"
  else if c = Char.ofNat 8233 then "\\u2029"
  else String.singleton c

/-- Escaping the json.Encoder applies to the raw bytes of a json.RawMessage
when it compacts them into the output: escapes already present in the raw
fragment pass through verbatim (each backslash is an ordinary byte here),
and only the HTML-sensitive characters are rewritten to unicode escapes. -/
def htmlEscChar (c : Char) : String :=
  if c = '<' then "\\u003c"
  else if c = '>' then "\\u003e"
  else if c = '&' then "\\u0026"
  else if c = Char.ofNat 8232 then "\\u2028"
  else if c = Char.ofNat 8233 then "\\u2029"
  else String.singleton c

/-- Raw byte escaping over a character list. -/
def htmlEscList : List Char → String
  | [] => ""
  | c :: r => htmlEscChar c ++ htmlEscList r

/-- Raw byte escaping over a string, as compact applies to a RawMessage. -/
def htmlEscRaw (s : String) : String :=
  htmlEscList s.toList

/-- A character the raw escaping leaves unchanged. -/
def htmlPlain (c : Char) : Bool :=
  ¬(c = '<' ∨ c = '>' ∨ c = '&' ∨ c = Char.ofNat 8232 ∨ c = Char.ofNat 8233)

/-- Serialization of a string to a quoted JSON string literal. -/
def serStr (s : String) : String :=
  "\"" ++ String.join (s.toList.map escCh) ++ "\""

mutual

/-- Compact serialization of a JSON value, as json.Marshal produces for the
corresponding Go values (numbers are emitted as their kept literal). -/
def Json.ser : Json → String
  | .null => "null"
  | .bool true => "true"
  | .bool false => "false"
  | .num lit => lit
  | .str s _ => serStr s
  | .arr xs => "[" ++ Json.serItems xs ++ "]"
  | .obj fs => String.singleton lbraceCh ++ Json.serMembers fs ++ String.singleton rbraceCh

/-- Comma separated serialization of array items. -/
def Json.serItems : List Json → String
  | [] => ""
  | [x] => Json.ser x
  | x :: y :: r => Json.ser x ++ "," ++ Json.serItems (y :: r)

/-- Comma separated serialization of object members. -/
def Json.serMembers : List (String × Json) → String
  | [] => ""
  | [(k, v)] => serStr k ++ ":" ++ Json.ser v
  | (k, v) :: m :: r => serStr k ++ ":" ++ Json.ser v ++ "," ++ Json.serMembers (m :: r)

end

/-! Error model, from coder/errors.go.  The Data field has Go type
interface but in this code base it only ever holds a string (set through
WithString or WithError) or is nil, so it is modelled as Option String. -/

/-- Error represents an error during handling the RPC request
(coder/errors.go). -/
structure Error where
  code : Int
  message : String
  data : Option String := none
deriving DecidableEq

/-- WithString returns an error with str in Data (coder/errors.go); it also
covers WithError, which stores the error text the same way. -/
def Error.withString (e : Error) (str : String) : Error :=
  { e with data := some str }

/-- ParseError constant of coder/errors.go. -/
def ParseError : Error := { code := -32700, message := "Parse error" }

/-- InvalidRequest constant of coder/errors.go. -/
def InvalidRequest : Error := { code := -32600, message := "Invalid Request" }

/-- Engine error constant methodNotFound of server.go. -/
def methodNotFound : Error := { code := -32601, message := "Method not found" }

/-- Engine error constant internalError of server.go. -/
def internalError : Error := { code := -32603, message := "Internal error" }

/-- Engine error constant invalidParams of server.go. -/
def invalidParams : Error := { code := -32602, message := "Invalid params" }

/-- Result of a Go computation that may panic: either a value or a panic
carrying the panic message. -/
inductive PRes (α : Type) where
  | ok (a : α) : PRes α
  | panicked (msg : String) : PRes α
deriving DecidableEq

/-- Constant serverErrorCodeBegin of coder/errors.go. -/
def serverErrorCodeBegin : Int := -32000

/-- Constant serverErrorCodeBeginReserved of coder/errors.go. -/
def serverErrorCodeBeginReserved : Int := -32090

/-- Constant serverErrorCodeEnd of coder/errors.go. -/
def serverErrorCodeEnd : Int := -32099

/-- Lower case serverError of coder/errors.go. -/
def serverError (code : Int) : Error := { code := code, message := "Server error" }

/-- ServerError of coder/errors.go, with its two panic paths modelled as
PRes.panicked; the comparisons are exactly those of the source. -/
def ServerError (code : Int) : PRes Error :=
  if code < serverErrorCodeBegin ∨ code > serverErrorCodeEnd then
    .panicked "coder: error code is not valid for use as server error"
  else if code ≥ serverErrorCodeBeginReserved ∧ code ≤ serverErrorCodeEnd then
    .panicked "coder: use of reserved server error code"
  else
    .ok (serverError code)

/-- ExceptionErrorCode of coder/errors.go. -/
def ExceptionErrorCode : Int := -32090

/-! Message model, from coder/coder.go.  A RequestID is a byte slice kept
verbatim from the wire; a nil slice (absent id field) is the inner none.
The ID field of a Request is a pointer to a RequestID; a nil pointer is
the outer none. -/

/-- Request of coder/coder.go: method name, params (decoded generic JSON
value, none when absent or JSON null, as both are a nil interface in Go),
and the ID pointer. -/
structure Request where
  method : String
  params : Option Json
  id : Option (Option String)

/-- Response of coder/coder.go: Result value, optional Error, and the ID
pointer copied from the request. -/
structure Response where
  result : Json := .null
  error : Option Error := none
  id : Option (Option String)

/-- NewResult of coder/coder.go: a result response for the given request. -/
def NewResult (r : Request) (v : Json) : Response :=
  { result := v, id := r.id }

/-- Error.Response of coder/errors.go: a response for the error, taking the
id of the request when one is given. -/
def Error.response (e : Error) (r : Option Request) : Response :=
  { error := some e,
    id := match r with
          | none => none
          | some req => req.id }

/-- Outcome of Method.Invoke (server.go): the Go interface value is either a
coder.Error value or a domain result. -/
inductive InvokeRes where
  | errv (e : Error) : InvokeRes
  | val (v : Json) : InvokeRes

/-- Method of server.go: named parameter conversion and invocation. -/
structure Method where
  parseNamedParams : List (String × Json) → Except String (List Json)
  invoke : List Json → InvokeRes

/-- The method registry of Server (server.go): a map from name to Method,
where a registered entry may hold a nil interface (Option Method).  The Go
map is modelled as an association list whose lookup takes the most recent
entry. -/
abbrev Server := List (String × Option Method)

/-- Server.Register of server.go: a plain map update with no validation;
modelled as a shadowing prepend. -/
def Server.register (s : Server) (name : String) (m : Option Method) : Server :=
  (name, m) :: s

/-- Register of coder/coder.go, generic in the factory type: panics (none)
when the factory is nil or the content type is already registered,
otherwise inserts. -/
def coderRegister {α : Type} (m : List (String × α)) (typ : String) (fn : Option α) :
    Option (List (String × α)) :=
  match fn with
  | none => none
  | some f =>
    if (m.lookup typ).isSome then none
    else some ((typ, f) :: m)

/-! Wire level JSON parser, mirroring the strict grammar of the Go
encoding/json scanner used by the jsonCoder (jsoncoder.go).  Numbers keep
their literal spelling.  Unicode escapes decode the basic multilingual
plane code point (the surrogate pairing of the Go decoder is not needed by
any input in this development). -/

/-- Whitespace set of the encoding/json scanner. -/
def isJsonWS (c : Char) : Bool :=
  c = ' ' ∨ c = '\t' ∨ c = '\n' ∨ c = '\r'

/-- Drop leading JSON whitespace. -/
def skipWS : List Char → List Char
  | [] => []
  | c :: r => if isJsonWS c then skipWS r else c :: r

/-- Longest prefix of decimal digits together with the remainder. -/
def spanDigits : List Char → List Char × List Char
  | [] => ([], [])
  | c :: r =>
    if c.isDigit then
      let (a, b) := spanDigits r
      (c :: a, b)
    else ([], c :: r)

/-- Test for a hexadecimal digit character. -/
def isHexDig (c : Char) : Bool :=
  c.isDigit ∨ ('a' ≤ c ∧ c ≤ 'f') ∨ ('A' ≤ c ∧ c ≤ 'F')

/-- Value of one hexadecimal digit character. -/
def hexVal (c : Char) : Nat :=
  if c.isDigit then c.toNat - 48
  else if 'a' ≤ c ∧ c ≤ 'f' then c.toNat - 87
  else c.toNat - 55

/-- Body of a JSON string literal after the opening quote: returns the
decoded string, the raw interior spelling consumed verbatim (escapes
kept, needed to model RawMessage), and the remainder after the closing
quote. -/
def parseStringBody : List Char → Option (String × String × List Char)
  | [] => none
  | '\"' :: r => some ("", "", r)
  | '\\' :: e :: r =>
    if e = 'u' then
      match r with
      | h1 :: h2 :: h3 :: h4 :: r2 =>
        if isHexDig h1 ∧ isHexDig h2 ∧ isHexDig h3 ∧ isHexDig h4 then
          match parseStringBody r2 with
          | some (s, raw, rest) =>
            let n := 4096 * hexVal h1 + 256 * hexVal h2 + 16 * hexVal h3 + hexVal h4
            some (String.singleton (Char.ofNat n) ++ s,
              String.mk ['\\', 'u', h1, h2, h3, h4] ++ raw, rest)
          | none => none
        else none
      | _ => none
    else
      match parseStringBody r with
      | some (s, raw, rest) =>
        let d : Option Char :=
          if e = '\"' then some '\"'
          else if e = '\\' then some '\\'
          else if e = '/' then some '/'
          else if e = 'b' then some (Char.ofNat 8)
          else if e = 'f' then some (Char.ofNat 12)
          else if e = 'n' then some '\n'
          else if e = 'r' then some '\r'
          else if e = 't' then some '\t'
          else none
        match d with
        | some c => some (String.singleton c ++ s, String.mk ['\\', e] ++ raw, rest)
        | none => none
      | none => none
  | c :: r =>
    if c.toNat < 32 then none
    else
      match parseStringBody r with
      | some (s, raw, rest) =>
        some (String.singleton c ++ s, String.singleton c ++ raw, rest)
      | none => none

/-- Fractional part of a JSON number token: a dot followed by at least one
digit, or nothing.  Returns the consumed characters (dot included). -/
def numFracTok : List Char → Option (List Char × List Char)
  | '.' :: t =>
    let (ds, r) := spanDigits t
    if ds.isEmpty then none else some ('.' :: ds, r)
  | rest => some ([], rest)

/-- Exponent part of a JSON number token: e or E, an optional sign, and at
least one digit, or nothing.  Returns the consumed characters. -/
def numExpTok : List Char → Option (List Char × List Char)
  | c :: t =>
    if c = 'e' ∨ c = 'E' then
      let (sg, t1) : List Char × List Char :=
        match t with
        | '+' :: u => (['+'], u)
        | '-' :: u => (['-'], u)
        | _ => ([], t)
      let (ds, r) := spanDigits t1
      if ds.isEmpty then none else some (c :: (sg ++ ds), r)
    else some ([], c :: t)
  | [] => some ([], [])

/-- After a JSON number token the scanner requires a delimiter: end of
input, whitespace, comma, or a closing bracket or brace. -/
def numDelimOk : List Char → Bool
  | [] => true
  | c :: _ => isJsonWS c ∨ c = ',' ∨ c = ']' ∨ c = rbraceCh

/-- JSON number token: optional minus, integer part with no leading zeros,
optional fraction and exponent.  Returns the literal spelling and the
remainder. -/
def parseNumToken (cs : List Char) : Option (String × List Char) :=
  let (sgn, r0) : List Char × List Char :=
    match cs with
    | '-' :: t => (['-'], t)
    | _ => ([], cs)
  match r0 with
  | [] => none
  | c :: r1 =>
    let ipart : Option (List Char × List Char) :=
      if c = '0' then some (['0'], r1)
      else if c.isDigit then
        let (ds, r2) := spanDigits r1
        some (c :: ds, r2)
      else none
    match ipart with
    | none => none
    | some (ip, r2) =>
      match numFracTok r2 with
      | none => none
      | some (fp, r3) =>
        match numExpTok r3 with
        | none => none
        | some (ep, r4) =>
          if numDelimOk r4 then
            some (String.mk (sgn ++ ip ++ fp ++ ep), r4)
          else none

mutual

/-- One JSON value with leading whitespace skipped, returning the remainder
of the input; fuel bounds the recursion depth and is always supplied as more
than the input length. -/
def parseValue : Nat → List Char → Option (Json × List Char)
  | 0, _ => none
  | fuel + 1, cs =>
    match skipWS cs with
    | 'n' :: 'u' :: 'l' :: 'l' :: r => some (.null, r)
    | 't' :: 'r' :: 'u' :: 'e' :: r => some (.bool true, r)
    | 'f' :: 'a' :: 'l' :: 's' :: 'e' :: r => some (.bool false, r)
    | '\"' :: r =>
      match parseStringBody r with
      | some (s, raw, rest) => some (.str s raw, rest)
      | none => none
    | '[' :: r =>
      (match skipWS r with
       | ']' :: r2 => some (.arr [], r2)
       | r2 =>
         match parseItems fuel r2 with
         | some (xs, rest) => some (.arr xs, rest)
         | none => none)
    | c :: r =>
      if c = lbraceCh then
        match skipWS r with
        | c2 :: r2 =>
          if c2 = rbraceCh then some (.obj [], r2)
          else
            (match parseMembers fuel (c2 :: r2) with
             | some (fs, rest) => some (.obj fs, rest)
             | none => none)
        | [] => none
      else
        match parseNumToken (c :: r) with
        | some (lit, rest) => some (.num lit, rest)
        | none => none
    | [] => none

/-- Nonempty comma separated item list of a JSON array, up to and including
the closing bracket. -/
def parseItems : Nat → List Char → Option (List Json × List Char)
  | 0, _ => none
  | fuel + 1, cs =>
    match parseValue fuel cs with
    | none => none
    | some (x, r) =>
      match skipWS r with
      | ',' :: r2 =>
        (match parseItems fuel r2 with
         | some (xs, rest) => some (x :: xs, rest)
         | none => none)
      | ']' :: r2 => some ([x], r2)
      | _ => none

/-- Nonempty comma separated member list of a JSON object, up to and
including the closing brace. -/
def parseMembers : Nat → List Char → Option (List (String × Json) × List Char)
  | 0, _ => none
  | fuel + 1, cs =>
    match skipWS cs with
    | '\"' :: r =>
      (match parseStringBody r with
       | none => none
       | some (k, _, r1) =>
         match skipWS r1 with
         | ':' :: r2 =>
           (match parseValue fuel r2 with
            | none => none
            | some (v, r3) =>
              match skipWS r3 with
              | ',' :: r4 =>
                (match parseMembers fuel r4 with
                 | some (fs, rest) => some ((k, v) :: fs, rest)
                 | none => none)
              | c :: r4 =>
                if c = rbraceCh then some ([(k, v)], r4) else none
              | [] => none)
         | _ => none)
    | _ => none

end

/-! The jsonNumber capability of jsoncoder.go.  Its casts call
json.Number.Float64 and json.Number.Int64, that is strconv.ParseFloat and
strconv.ParseInt on the literal.  The float value itself is not modelled;
only the success of the cast is, which for a literal in the JSON number
grammar depends exactly on whether the exact decimal value reaches the
rounding threshold to infinity of the binary64 format, 2 ^ 1024 - 2 ^ 970
(an underflowing small literal parses to zero without error). -/

/-- Decimal digits to a natural number. -/
def digitsToNat (ds : List Char) : Nat :=
  ds.foldl (fun a c => a * 10 + (c.toNat - 48)) 0

/-- Decomposition of a JSON number literal: sign, integer digits, fraction
digits, resolved exponent. -/
structure NumParts where
  neg : Bool
  ip : List Char
  fp : List Char
  ex : Int
deriving DecidableEq

/-- Integer part of the JSON number grammar: a single zero, or a nonzero
digit followed by digits. -/
def parseIntDigits : List Char → Option (List Char × List Char)
  | [] => none
  | c :: r =>
    if c = '0' then some (['0'], r)
    else if c.isDigit then
      let (a, b) := spanDigits r
      some (c :: a, b)
    else none

/-- Fraction part of the JSON number grammar, returning its digits. -/
def parseFracPart : List Char → Option (List Char × List Char)
  | [] => some ([], [])
  | c :: r =>
    if c = '.' then
      let (a, b) := spanDigits r
      if a.isEmpty then none else some (a, b)
    else some ([], c :: r)

/-- Exponent part of the JSON number grammar, returning its value. -/
def parseExpPart : List Char → Option (Int × List Char)
  | c :: r =>
    if c = 'e' ∨ c = 'E' then
      let (sgNeg, r1) : Bool × List Char :=
        match r with
        | '+' :: t => (false, t)
        | '-' :: t => (true, t)
        | _ => (false, r)
      let (a, b) := spanDigits r1
      if a.isEmpty then none
      else some ((if sgNeg then -(digitsToNat a : Int) else (digitsToNat a : Int)), b)
    else some (0, c :: r)
  | [] => some (0, [])

/-- Unsigned tail of a full JSON number literal (everything after the
optional minus sign), requiring the whole input to be consumed. -/
def numTail (neg : Bool) (cs1 : List Char) : Option NumParts :=
  match parseIntDigits cs1 with
  | none => none
  | some (ip, r1) =>
    match parseFracPart r1 with
    | none => none
    | some (fp, r2) =>
      match parseExpPart r2 with
      | none => none
      | some (ex, r3) =>
        if r3.isEmpty then some ⟨neg, ip, fp, ex⟩ else none

/-- Full JSON number literal. -/
def parseJsonNum (cs : List Char) : Option NumParts :=
  match cs with
  | '-' :: t => numTail true t
  | _ => numTail false cs

/-- Test for membership in the JSON number grammar. -/
def isJsonNumber (s : String) : Bool :=
  (parseJsonNum s.toList).isSome

/-- Mantissa of a literal: its digits with the decimal point removed. -/
def NumParts.mantissa (p : NumParts) : Nat :=
  digitsToNat (p.ip ++ p.fp)

/-- Scale of a literal: the power of ten its mantissa is multiplied by. -/
def NumParts.scale (p : NumParts) : Int :=
  p.ex - p.fp.length

/-- The literal has a strictly negative value. -/
def NumParts.isNegValue (p : NumParts) : Bool :=
  p.neg && decide (p.mantissa ≠ 0)

/-- Smallest magnitude that strconv.ParseFloat reports as out of range for
binary64: values at or above it round to infinity. -/
def f64OverflowBound : Nat := 2 ^ 1024 - 2 ^ 970

/-- The exact value of the literal reaches the overflow bound. -/
def NumParts.overflows (p : NumParts) : Bool :=
  if 0 ≤ p.scale then
    decide (f64OverflowBound ≤ p.mantissa * 10 ^ p.scale.toNat)
  else
    decide (f64OverflowBound * 10 ^ (-p.scale).toNat ≤ p.mantissa)

/-- Success of jsonNumber.CastFloat64 (jsoncoder.go) on a literal of the
JSON number grammar: strconv.ParseFloat succeeds unless the value
overflows (the additional non-JSON spellings ParseFloat would accept can
never reach this cast through the decoder and are rejected here). -/
def CastFloat64Ok (s : String) : Bool :=
  match parseJsonNum s.toList with
  | none => false
  | some p => !p.overflows

/-- Syntax accepted by strconv.ParseInt with base ten: an optional sign
followed by one or more decimal digits. -/
def parseIntChars : List Char → Option (Bool × List Char)
  | [] => none
  | c :: t =>
    if c = '+' then
      if ¬t.isEmpty ∧ t.all Char.isDigit then some (false, t) else none
    else if c = '-' then
      if ¬t.isEmpty ∧ t.all Char.isDigit then some (true, t) else none
    else
      if ¬(c :: t).isEmpty ∧ (c :: t).all Char.isDigit then some (false, c :: t) else none

/-- Largest value of the host signed integer. -/
def int64Max : Int := 2 ^ 63 - 1

/-- Smallest value of the host signed integer. -/
def int64Min : Int := -(2 ^ 63)

/-- Signed integer value denoted by a sign flag and digit characters. -/
def intValOf (neg : Bool) (ds : List Char) : Int :=
  if neg then -(digitsToNat ds : Int) else (digitsToNat ds : Int)

/-- Method jsonNumber.CastInt of jsoncoder.go: strconv.ParseInt semantics —
syntax failure returns zero and not ok, a value out of the signed range
returns the saturated bound and not ok, otherwise the value and ok. -/
def CastInt (s : String) : Int × Bool :=
  match parseIntChars s.toList with
  | none => (0, false)
  | some (neg, ds) =>
    if int64Min ≤ intValOf neg ds ∧ intValOf neg ds ≤ int64Max then (intValOf neg ds, true)
    else ((if neg then int64Min else int64Max), false)

/-- Method jsonNumber.CastUint of jsoncoder.go: the signed cast, rejecting
negative results. -/
def CastUint (s : String) : Nat × Bool :=
  let (v, ok) := CastInt s
  if v < 0 then (0, false) else (v.toNat, ok)

/-! The jsonRequest struct of jsoncoder.go and its decode.  The id member
is kept as the captured JSON value, whose string constructor carries the
raw interior spelling of the wire literal, so the raw fragment a
json.RawMessage would retain (number literal, quoted raw string interior,
or the null keyword) is available verbatim for the RequestID. -/

/-- Placeholder for the text of a Go json decode error (no claim depends on
the wording of these messages). -/
def jsonDecodeErrMsg : String := "json decode error"

/-- Struct jsonRequest of jsoncoder.go: version, method, params, raw id. -/
structure JsonRequest where
  v : String := ""
  m : String := ""
  p : Option Json := none
  i : Option Json := none

/-- Version literal jsonrpcVersion of jsoncoder.go. -/
def jsonrpcVersion : String := "2.0"

/-- One member step of decoding a JSON object into the jsonRequest struct:
the jsonrpc and method members must be strings (a null member leaves the
zero value, as json.Unmarshal does), params of null gives the nil
interface, the id member is captured raw; unknown members are ignored and
a repeated member overwrites (last wins, as for a Go struct decode).
Member keys are matched exactly; the case-insensitive fallback of the Go
struct decoder is not modelled. -/
def decodeJsonRequestStep (jr : JsonRequest) (kv : String × Json) : Option JsonRequest :=
  if kv.1 = "jsonrpc" then
    match kv.2 with
    | .str s _ => some { jr with v := s }
    | .null => some jr
    | _ => none
  else if kv.1 = "method" then
    match kv.2 with
    | .str s _ => some { jr with m := s }
    | .null => some jr
    | _ => none
  else if kv.1 = "params" then
    match kv.2 with
    | .null => some { jr with p := none }
    | v => some { jr with p := some v }
  else if kv.1 = "id" then
    some { jr with i := some kv.2 }
  else some jr

/-- Decode of a generic JSON value into the jsonRequest struct, as
json.Decoder.Decode does for jsoncoder.go (a JSON null decodes into a
struct as a no-op; any non-object value is a decode error). -/
def decodeJsonRequest : Json → Option JsonRequest
  | .null => some {}
  | .obj fs => fs.foldlM decodeJsonRequestStep {}
  | _ => none

/-- Raw wire bytes of a scalar id value, as the json.RawMessage holding the
id field retains them: a string keeps its interior spelling between the
quotes, a number its literal, null its keyword; non-scalar values have no
use for raw bytes here because validation rejects them. -/
def idRawOf : Json → Option String
  | .str _ raw => some ("\"" ++ raw ++ "\"")
  | .num lit => some lit
  | .null => some "null"
  | _ => none

/-- Id checking of jsonRequest.Request (jsoncoder.go lines 301 to 316):
the test unmarshal of the raw id bytes — a numeric id whose value
overflows float64 makes json.Unmarshal fail, yielding a ParseError —
then the type switch admitting string, number and null; on success the
raw id bytes are returned to be retained verbatim as the RequestID. -/
def validateId : Json → Except Error String
  | .str _ raw => .ok ("\"" ++ raw ++ "\"")
  | .num lit =>
    match parseJsonNum lit.toList with
    | some p =>
      if p.overflows then .error (ParseError.withString jsonDecodeErrMsg)
      else .ok lit
    | none => .error (ParseError.withString jsonDecodeErrMsg)
  | .null => .ok "null"
  | _ => .error (InvalidRequest.withString "invalid id type")

/-- Method jsonRequest.Request of jsoncoder.go: version check, then the
id check of validateId when an id member is present, and construction of
the Request.  The number wrapping of params into the Number capability is
the identity at this level because numbers already carry their literal.
The returned ID pointer is always non-nil; the pointee is nil exactly
when the id member was absent. -/
def jsonRequestToRequest (jr : JsonRequest) : Except Error Request :=
  if jr.v ≠ jsonrpcVersion then
    .error (InvalidRequest.withString "invalid version")
  else
    match jr.i with
    | none => .ok { method := jr.m, params := jr.p, id := some none }
    | some idv =>
      match validateId idv with
      | .error e => .error e
      | .ok bytes => .ok { method := jr.m, params := jr.p, id := some (some bytes) }

/-- Element loop of jsonCoder.jsonReadBatch (jsoncoder.go): an element whose
struct decode fails becomes a nil (none) entry, an element whose semantic
validation fails is skipped, and a valid element is appended in order. -/
def jsonReadBatchElems : List Json → List (Option Request)
  | [] => []
  | e :: rest =>
    match decodeJsonRequest e with
    | none => none :: jsonReadBatchElems rest
    | some jr =>
      match jsonRequestToRequest jr with
      | .error _ => jsonReadBatchElems rest
      | .ok r => some r :: jsonReadBatchElems rest

/-- Placeholder for the text of the bufio Peek failure on an empty stream. -/
def peekErrMsg : String := "EOF"

/-- Function jsonCoder.jsonReadRequest of jsoncoder.go, at the wire level:
decode one value into the jsonRequest struct (failure, either of the
parse or of the struct shape, is an InvalidRequest with the decoder text
as data), then validate and build the single element slice. -/
def jsonReadRequestText (cs : List Char) : Except Error (List (Option Request)) :=
  match parseValue (cs.length + 1) cs with
  | none => .error (InvalidRequest.withString jsonDecodeErrMsg)
  | some (j, _) =>
    match decodeJsonRequest j with
    | none => .error (InvalidRequest.withString jsonDecodeErrMsg)
    | some jr =>
      match jsonRequestToRequest jr with
      | .error e => .error e
      | .ok r => .ok [some r]

/-- Function jsonCoder.jsonReadBatch of jsoncoder.go, at the wire level:
decode the outer array of raw elements (failure is a ParseError), reject
the empty batch with a bare InvalidRequest, then run the element loop. -/
def jsonReadBatchText (cs : List Char) : Except Error (List (Option Request)) :=
  match parseValue (cs.length + 1) cs with
  | some (.arr elems, _) =>
    if elems.isEmpty then .error InvalidRequest
    else .ok (jsonReadBatchElems elems)
  | _ => .error (ParseError.withString jsonDecodeErrMsg)

/-- Method jsonCoder.ReadRequests of jsoncoder.go: peek the first byte of
the body verbatim (an empty stream is a ParseError); a leading bracket
selects batch mode, anything else single mode.  Returns the triple of the
Go signature: requests, batch flag, error. -/
def readRequestsList : List Char → List (Option Request) × Bool × Option Error
  | [] => ([], false, some (ParseError.withString peekErrMsg))
  | c :: rest =>
    if c = '[' then
      match jsonReadBatchText (c :: rest) with
      | .error e => ([], true, some e)
      | .ok reqs => (reqs, true, none)
    else
      match jsonReadRequestText (c :: rest) with
      | .error e => ([], false, some e)
      | .ok reqs => (reqs, false, none)

/-- See readRequestsList: ReadRequests runs it on the body bytes. -/
def ReadRequests (body : String) : List (Option Request) × Bool × Option Error :=
  readRequestsList body.toList

/-! Encode side of the JSON coder (jsoncoder.go): the jsonResponse struct,
jsonResponseFor, and the serialization the json.Encoder produces for it. -/

/-- Struct jsonResponse of jsoncoder.go: version, optional result pointer,
optional error, and the id raw bytes (the I pointer is always set by
jsonResponseFor, so it is a plain String here). -/
structure JsonResponse where
  v : String
  r : Option Json
  e : Option Error
  i : String

/-- Function jsonResponseFor of jsoncoder.go: id defaults to the null
literal when the response has a nil ID pointer, and a nil RequestID slice
also marshals as null; exactly one of result and error is set. -/
def jsonResponseFor (resp : Response) : JsonResponse :=
  let idBytes : String :=
    match resp.id with
    | none => "null"
    | some none => "null"
    | some (some b) => b
  match resp.error with
  | some e => { v := jsonrpcVersion, r := none, e := some e, i := idBytes }
  | none => { v := jsonrpcVersion, r := some resp.result, e := none, i := idBytes }

/-- Serialization of the jsonError struct of jsoncoder.go (code, message,
optional data). -/
def serError (e : Error) : String :=
  "\x7b\"code\":" ++ toString e.code ++ ",\"message\":" ++ serStr e.message
    ++ (match e.data with
        | none => ""
        | some d => ",\"data\":" ++ serStr d)
    ++ "\x7d"

/-- Front part of the serialized jsonResponse, before the id member:
version, then the result or error member, with the omitempty members
dropped when unset. -/
def serResponseFront (jr : JsonResponse) : String :=
  "\x7b\"jsonrpc\":" ++ serStr jr.v
    ++ (match jr.r with
        | none => ""
        | some v => ",\"result\":" ++ Json.ser v)
    ++ (match jr.e with
        | none => ""
        | some e => ",\"error\":" ++ serError e)

/-- Serialization of the jsonResponse struct in its Go field order: the
front part, then the id member, whose raw RequestID bytes pass through
the HTML escaping the encoder applies when compacting a RawMessage. -/
def JsonResponse.ser (jr : JsonResponse) : String :=
  serResponseFront jr ++ ",\"id\":" ++ htmlEscRaw jr.i ++ "\x7d"

/-- Response sink state: whether the coder declared the outgoing content
type, the explicitly written HTTP status, and the accumulated body. -/
structure Out where
  contentTypeDeclared : Bool := false
  status : Option Nat := none
  body : String := ""
deriving DecidableEq

/-- Method jsonCoder.WriteContentType of jsoncoder.go: declares the JSON
content type header. -/
def jsonWriteContentType (o : Out) : Out :=
  { o with contentTypeDeclared := true }

/-- Method jsonCoder.WriteResponse of jsoncoder.go: the encoder appends the
serialized response and a newline. -/
def Out.writeResponse (o : Out) (r : Response) : Out :=
  { o with body := o.body ++ (jsonResponseFor r).ser ++ "\n" }

/-- Serialization of a response slice as the json.Encoder emits it (an
empty slice is the empty array). -/
def serResponses (rs : List Response) : String :=
  "[" ++ String.intercalate "," (rs.map (fun r => (jsonResponseFor r).ser)) ++ "]" ++ "\n"

/-- Method jsonCoder.WriteResponses of jsoncoder.go: encodes the whole
slice as one JSON array followed by a newline. -/
def Out.writeResponses (o : Out) (rs : List Response) : Out :=
  { o with body := o.body ++ serResponses rs }

/-! Dispatch engine, from server.go. -/

/-- Panic message of a nil pointer dereference, raised when the engine
dereferences a nil ID pointer in a Request handed over by a coder. -/
def nilDerefMsg : String := "runtime error: invalid memory address or nil pointer dereference"

/-- One character list starts with another. -/
def listIsPre : List Char → List Char → Bool
  | [], _ => true
  | _ :: _, [] => false
  | p :: ps, c :: cs => p = c && listIsPre ps cs

/-- Model of strings.HasPrefix used at server.go line 117. -/
def strStartsWith (s pre : String) : Bool :=
  listIsPre pre.toList s.toList

/-- Parameter binding switch of Server.invokeRequest (server.go): params
must be an array (bound as given) or an object (converted by the method,
failure giving InvalidParams with the failure text); anything else gives
InvalidParams with the fixed text. -/
def bindParams (m : Method) (req : Request) : Except Response (List Json) :=
  match req.params with
  | some (.arr v) => .ok v
  | some (.obj o) =>
    match m.parseNamedParams o with
    | .error err => .error ((invalidParams.withString err).response (some req))
    | .ok ps => .ok ps
  | _ =>
    .error ((invalidParams.withString
      "params should be by-position (array) or by-name (object)").response (some req))

/-- Tail of Server.invokeRequest (server.go) after parameter binding: the
method is invoked, then the ID pointer is dereferenced unconditionally — a
nil pointer panics — and a nil RequestID suppresses the response; an Error
result becomes an error response, anything else a result response. -/
def finishInvoke (m : Method) (req : Request) (params : List Json) : PRes (Option Response) :=
  let result := m.invoke params
  match req.id with
  | none => .panicked nilDerefMsg
  | some none => .ok none
  | some (some _) =>
    match result with
    | .errv e => .ok (some (e.response (some req)))
    | .val v => .ok (some (NewResult req v))

/-- Method Server.invokeRequest of server.go, in source order: reserved or
empty method names and unregistered or nil methods give MethodNotFound;
parameters are bound through bindParams, a binding failure returning its
error response; the rest of the method body is finishInvoke. -/
def invokeRequest (s : Server) (req : Request) : PRes (Option Response) :=
  if req.method = "" ∨ strStartsWith req.method "rpc." then
    .ok (some (methodNotFound.response (some req)))
  else
    match s.lookup req.method with
    | none => .ok (some (methodNotFound.response (some req)))
    | some none => .ok (some (methodNotFound.response (some req)))
    | some (some m) =>
      match bindParams m req with
      | .error resp => .ok (some resp)
      | .ok params => finishInvoke m req params

/-- Response collection loop of Server.ServeHTTP (server.go lines 64 to
78): a nil request entry becomes an InvalidRequest response with nil id,
a suppressed notification response is skipped, everything else is appended
in order; a panic in invokeRequest propagates. -/
def dispatchAll (s : Server) : List (Option Request) → PRes (List Response)
  | [] => .ok []
  | none :: rest =>
    (match dispatchAll s rest with
     | .panicked p => .panicked p
     | .ok rs => .ok (InvalidRequest.response none :: rs))
  | some r :: rest =>
    match invokeRequest s r with
    | .panicked p => .panicked p
    | .ok none => dispatchAll s rest
    | .ok (some x) =>
      match dispatchAll s rest with
      | .panicked p => .panicked p
      | .ok rs => .ok (x :: rs)

/-- Encode stage of Server.ServeHTTP (server.go lines 80 to 94): a batch
always writes the whole response slice; a non-batch exchange writes
nothing for zero responses, the single response for one, and otherwise
builds ServerError(-32091) with data multiple responses — a call that
panics in the source. -/
def serveDispatch (s : Server) (reqs : List (Option Request)) (batch : Bool) (o : Out) :
    PRes Out :=
  match dispatchAll s reqs with
  | .panicked p => .panicked p
  | .ok resps =>
    if batch then .ok (o.writeResponses resps)
    else
      match resps with
      | [] => .ok o
      | [r] => .ok (o.writeResponse r)
      | _ =>
        match ServerError (-32091) with
        | .panicked p => .panicked p
        | .ok e => .ok (o.writeResponse ((e.withString "multiple responses").response none))

/-- An inbound HTTP exchange as the engine sees it: verb, declared content
type, and body (the ContentLength zero check of the source corresponds to
an empty body here). -/
structure HttpRequest where
  method : String
  contentType : String
  body : String

/-- Coder resolution of coder.New for the registry as populated at process
start: only the JSON coder registers itself (init in jsoncoder.go), under
exactly this content type string. -/
def coderAvailable (ct : String) : Bool := ct = "application/json"

/-- Method Server.ServeHTTP of server.go: resolve the coder (an unknown
content type is reported at the transport level and no protocol response
is attempted), reject non-POST verbs with status 405 and a ParseError
response, reject an empty body with a ParseError response, then decode,
dispatch and encode.  The source never invokes WriteContentType.  Write
failures of the sink cannot occur in this model, so the WriteException
fallback path is not reachable here. -/
def serveHTTP (s : Server) (r : HttpRequest) : PRes Out :=
  if ¬coderAvailable r.contentType then
    .ok { contentTypeDeclared := false, status := some 415,
          body := "media type \"" ++ r.contentType ++ "\" is not supported\n" }
  else
    let o : Out := {}
    if r.method ≠ "POST" then
      .ok (Out.writeResponse { o with status := some 405 }
        ((ParseError.withString "invalid HTTP method").response none))
    else if r.body = "" then
      .ok (o.writeResponse ((ParseError.withString "empty POST body").response none))
    else
      match ReadRequests r.body with
      | (_, _, some e) => .ok (o.writeResponse (e.response none))
      | (reqs, batch, none) => serveDispatch s reqs batch o

/-! Concrete fixtures used by the claim theorems and witnesses. -/

/-- A registered method that accepts any parameters and returns null. -/
def noopMethod : Method where
  parseNamedParams := fun _ => .ok []
  invoke := fun _ => .val .null

/-- A server with the single method noop registered. -/
def noopServer : Server := [("noop", some noopMethod)]

/-- A decoded request with an empty method name and a present id, as used
to drive the multiple response branch of the engine. -/
def rqEmptyMethod : Request :=
  { method := "", params := none, id := some (some "1") }

/-- A request with a nil ID pointer for a registered method, as a
misbehaving coder could hand to the engine. -/
def crashReq : Request :=
  { method := "noop", params := some (.arr []), id := none }

/-- An exchange carrying a single notification for an unregistered method. -/
def notifUnknownHttp : HttpRequest :=
  { method := "POST", contentType := "application/json",
    body := "\x7b\"jsonrpc\":\"2.0\",\"method\":\"nosuch\"\x7d" }

/-- An exchange carrying a batch whose only element is a notification for
the registered noop method. -/
def notifBatchHttp : HttpRequest :=
  { method := "POST", contentType := "application/json",
    body := "[\x7b\"jsonrpc\":\"2.0\",\"method\":\"noop\",\"params\":[]\x7d]" }

/-- An exchange with an empty body. -/
def emptyBodyHttp : HttpRequest :=
  { method := "POST", contentType := "application/json", body := "" }

/-- A decoded jsonRequest with the numeric id literal 1. -/
def jrNumOne : JsonRequest :=
  { v := "2.0", m := "m", p := none, i := some (.num "1") }

/-- An exchange invoking the registered noop method with the string id
containing a less-than sign, which the encoder HTML-escapes on output. -/
def ltIdHttp : HttpRequest :=
  { method := "POST", contentType := "application/json",
    body := "\x7b\"jsonrpc\":\"2.0\",\"method\":\"noop\",\"params\":[],\"id\":\"<\"\x7d" }

/-- A decoded jsonRequest with the string id literal. -/
def jrStrId : JsonRequest :=
  { v := "2.0", m := "m", p := none, i := some (.str "id" "id") }

/-- A decoded jsonRequest with no id member. -/
def jrNoId : JsonRequest :=
  { v := "2.0", m := "m", p := none, i := none }

/-- A request naming the nil registered method, with a present id. -/
def reqNil : Request :=
  { method := "nil", params := some (.arr []), id := some (some "1") }

/-- The Request produced by decoding jrNumOne. -/
def rNumOne : Request :=
  { method := "m", params := none, id := some (some "1") }

/-- The Request produced by decoding jrNoId: the ID pointer is present and
points at a nil RequestID. -/
def rNoId : Request :=
  { method := "m", params := none, id := some none }

/-- Projection of a non-panicking dispatch outcome. -/
def okOrNone : PRes (Option Response) → Option Response
  | .ok o => o
  | .panicked _ => none

/-- The body written for an empty POST: a ParseError response. -/
def emptyBodyParseErrorBody : String :=
  "\x7b\"jsonrpc\":\"2.0\",\"error\":\x7b\"code\":-32700,\"message\":\"Parse error\",\"data\":\"empty POST body\"\x7d,\"id\":null\x7d\n"

/-- The body written for a notification naming an unregistered method: a
MethodNotFound response with null id. -/
def methodNotFoundNullIdBody : String :=
  "\x7b\"jsonrpc\":\"2.0\",\"error\":\x7b\"code\":-32601,\"message\":\"Method not found\"\x7d,\"id\":null\x7d\n"

/-! Shared helper lemmas. -/

/-- Sanity vectors for the integer casts, mirroring the cases of the
repository tests Test_jsonNumber_CastInt and Test_jsonNumber_CastUint. -/
theorem castInt_vectors :
    CastInt "2" = (2, true) ∧ CastInt "-2" = (-2, true) ∧ CastInt "2.0" = (0, false) ∧
      CastInt "18446744073709551615" = (9223372036854775807, false) ∧
      CastUint "2" = (2, true) ∧ CastUint "-2" = (0, false) ∧
      CastUint "18446744073709551615" = (9223372036854775807, false) := by
  decide

set_option exponentiation.threshold 1100 in
/-- Sanity vectors for the float cast, mirroring the syntactic cases of
the repository test Test_jsonNumber_CastFloat64. -/
theorem castFloat_vectors :
    CastFloat64Ok "2.0201" = true ∧ CastFloat64Ok "2" = true ∧ CastFloat64Ok "-2" = true ∧
      CastFloat64Ok "2.." = false ∧ CastFloat64Ok "--2.0201" = false := by
  decide

/-- Sanity vector for the serializer and the parser. -/
theorem parser_vectors :
    Json.ser (.arr [.num "1", .str "a" "a"]) = "[1,\"a\"]" ∧
      parseValue 10 " [1, \"a\"]".toList = some (.arr [.num "1", .str "a" "a"], []) := by
  exact ⟨rfl, rfl⟩

/-- Every Request built by jsonRequestToRequest has a non-nil ID pointer. -/
theorem toRequest_id_isSome (jr : JsonRequest) (r : Request)
    (h : jsonRequestToRequest jr = .ok r) : ∃ b, r.id = some b := by
  unfold jsonRequestToRequest at h
  split at h
  · simp at h
  · split at h
    · injection h with h
      exact ⟨none, by rw [← h]⟩
    · split at h
      · simp at h
      · injection h with h
        exact ⟨_, by rw [← h]⟩

/-- When the ID pointer is non-nil, finishInvoke cannot panic. -/
theorem finishInvoke_isOk (m : Method) (req : Request) (params : List Json) (b : Option String)
    (hid : req.id = some b) : ∃ o, finishInvoke m req params = .ok o := by
  unfold finishInvoke
  rw [hid]
  cases b with
  | none => exact ⟨_, rfl⟩
  | some bb =>
    cases hres : m.invoke params with
    | errv e => exact ⟨_, rfl⟩
    | val v => exact ⟨_, rfl⟩

/-- When the ID pointer is non-nil, invokeRequest cannot panic. -/
theorem invokeRequest_isOk (s : Server) (req : Request) (b : Option String)
    (hid : req.id = some b) : ∃ o, invokeRequest s req = .ok o := by
  unfold invokeRequest
  split
  · exact ⟨_, rfl⟩
  · split
    · exact ⟨_, rfl⟩
    · exact ⟨_, rfl⟩
    · rename_i m heq
      cases hb : bindParams m req with
      | error resp => exact ⟨_, rfl⟩
      | ok params =>
        obtain ⟨o, ho⟩ := finishInvoke_isOk m req params b hid
        exact ⟨o, ho⟩

/-! Claim theorems. -/

/-- C1: refuted by the code — the range guard of ServerError
(code < -32000 or code > -32099) holds for every integer, so constructing
a ServerError panics for every code, the in-range non-reserved ones
included, and the multiple responses branch of a non-batch exchange
panics instead of emitting the -32091 response. -/
theorem c1_server_error_always_panics :
    (∀ code : Int,
      ServerError code = .panicked "coder: error code is not valid for use as server error")
    ∧ serveDispatch [] [some rqEmptyMethod, some rqEmptyMethod] false {} =
        .panicked "coder: error code is not valid for use as server error" := by
  constructor
  · intro code
    have h : code < serverErrorCodeBegin ∨ code > serverErrorCodeEnd := by
      unfold serverErrorCodeBegin serverErrorCodeEnd
      omega
    unfold ServerError
    rw [if_pos h]
  · rfl

/-- C2: refuted by the code — a notification (absent id) naming an
unregistered method is answered with a MethodNotFound response and the
body is written, because the notification check of invokeRequest runs
only after method resolution and parameter binding. -/
theorem c2_notification_gets_error_response :
    serveHTTP [] notifUnknownHttp =
      .ok { contentTypeDeclared := false, status := none, body := methodNotFoundNullIdBody } := by
  rfl

/-- C3 counterexample: a batch whose single element is a notification for
the registered noop method dispatches to an empty response sequence, yet
the engine writes the three bytes of an empty JSON array and a newline —
not nothing. -/
theorem c3_all_notification_batch_writes_array :
    serveHTTP noopServer notifBatchHttp =
      .ok { contentTypeDeclared := false, status := none, body := "[]\n" } := by
  rfl

/-- C3 amended: for a batch exchange whose dispatch produces the empty
response sequence (for example when every original request is a
notification), the engine still calls writeResponses, appending an empty
JSON array and a newline to the body — unlike the non-batch case, which
writes nothing. -/
theorem c3_empty_batch_response_written (s : Server) (reqs : List (Option Request)) (o : Out)
    (h : dispatchAll s reqs = .ok []) :
    serveDispatch s reqs true o = .ok { o with body := o.body ++ "[]\n" } := by
  unfold serveDispatch
  rw [h]
  rfl

/-- C3 witness: the amended theorem at the empty request list. -/
theorem c3_empty_batch_response_written_witness :
    serveDispatch noopServer [] true {} = .ok { body := "[]\n" } :=
  c3_empty_batch_response_written noopServer [] {} rfl

/-- C4 counterexample: neither registration operation is fatal on the
misuses the claim lists — coder.Register accepts the empty content type,
and Server.Register has no failure path at all, accepting a duplicate
name bound to a nil method. -/
theorem c4_registration_misuse_not_fatal :
    coderRegister ([] : List (String × Unit)) "" (some ()) = some [("", ())] ∧
      Server.register (Server.register [] "nil" none) "nil" none =
        [("nil", none), ("nil", none)] := by
  exact ⟨rfl, rfl⟩

/-- C4 amended: coder.Register panics exactly when the factory is nil or
the content type is already registered (an empty content type is
accepted); Server.Register never fails — any name, duplicates included,
may be bound to any method, a nil one included, and a registered nil
method is answered at dispatch with MethodNotFound. -/
theorem c4_registration_behavior :
    (∀ (α : Type) (m : List (String × α)) (typ : String) (fn : Option α),
        coderRegister m typ fn = none ↔ fn = none ∨ (m.lookup typ).isSome = true)
    ∧ (∀ (s : Server) (name : String) (mm : Option Method),
        (Server.register s name mm).lookup name = some mm)
    ∧ (∀ (s : Server) (req : Request),
        s.lookup req.method = some none →
        req.method ≠ "" →
        strStartsWith req.method "rpc." = false →
        invokeRequest s req = .ok (some (methodNotFound.response (some req)))) := by
  refine ⟨?_, ?_, ?_⟩
  · intro α m typ fn
    cases fn with
    | none => simp [coderRegister]
    | some f =>
      by_cases h : (m.lookup typ).isSome
      · simp [coderRegister, h]
      · simp [coderRegister, h]
  · intro s name mm
    simp [Server.register, List.lookup]
  · intro s req hlook hne hpre
    unfold invokeRequest
    rw [if_neg (by simp [hne, hpre]), hlook]

/-- C4 witness: the amended theorem at concrete inputs. -/
theorem c4_registration_behavior_witness :
    coderRegister ([("a", ())] : List (String × Unit)) "a" (some ()) = none ∧
      (Server.register [] "nil" none).lookup "nil" = some none ∧
      invokeRequest [("nil", none)] reqNil = .ok (some (methodNotFound.response (some reqNil))) :=
  ⟨(c4_registration_behavior.1 Unit [("a", ())] "a" (some ())).mpr (Or.inr (by decide)),
   c4_registration_behavior.2.1 [] "nil" none,
   c4_registration_behavior.2.2 [("nil", none)] reqNil rfl (by decide) (by decide)⟩

/-- Helper: serveDispatch leaves the content type declaration flag of the
sink unchanged on every non-panicking path. -/
theorem serveDispatch_keeps_declared (s : Server) (reqs : List (Option Request)) (b : Bool)
    (o : Out) (out : Out) (h : serveDispatch s reqs b o = .ok out) :
    out.contentTypeDeclared = o.contentTypeDeclared := by
  unfold serveDispatch at h
  split at h
  · exact absurd h (by simp)
  · split at h
    · injection h with h
      rw [← h]
      rfl
    · split at h
      · injection h with h
        rw [← h]
      · injection h with h
        rw [← h]
        rfl
      · split at h
        · exact absurd h (by simp)
        · injection h with h
          rw [← h]
          rfl

/-- Helper: no path of ServeHTTP ever declares the outgoing content type
(the source never calls WriteContentType, which is not even part of the
Coder interface of coder/coder.go). -/
theorem serveHTTP_never_declares (s : Server) (r : HttpRequest) (out : Out)
    (h : serveHTTP s r = .ok out) : out.contentTypeDeclared = false := by
  unfold serveHTTP at h
  split at h
  · injection h with h
    rw [← h]
  · split at h
    · injection h with h
      rw [← h]
      rfl
    · split at h
      · injection h with h
        rw [← h]
        rfl
      · split at h
        · injection h with h
          rw [← h]
          rfl
        · exact serveDispatch_keeps_declared _ _ _ _ _ h

/-- C5: refuted by the code — the engine never declares the outgoing
content type on any exchange (the repository tests assert the header on
every response, and jsonCoder.WriteContentType exists, but ServeHTTP
never calls it and the Coder interface does not expose it); concretely,
the empty body error response is written with the flag still unset. -/
theorem c5_content_type_never_declared :
    (∀ (s : Server) (r : HttpRequest) (out : Out),
        serveHTTP s r = .ok out → out.contentTypeDeclared = false)
    ∧ serveHTTP [] emptyBodyHttp =
        .ok { contentTypeDeclared := false, status := none, body := emptyBodyParseErrorBody } :=
  ⟨serveHTTP_never_declares, rfl⟩

/-- C5 witness: the universal part applied at the empty body exchange,
discharged by the concrete part. -/
theorem c5_content_type_never_declared_witness :
    ({ contentTypeDeclared := false, status := none, body := emptyBodyParseErrorBody } : Out).contentTypeDeclared = false :=
  c5_content_type_never_declared.1 [] emptyBodyHttp _ c5_content_type_never_declared.2

/-- C6 counterexample: a batch body preceded by a single space is not
treated as a batch — the peek inspects the first byte verbatim — while
the same body without the space is. -/
theorem c6_leading_whitespace_defeats_batch :
    (ReadRequests " [1]").2.1 = false ∧ (ReadRequests "[1]").2.1 = true := by
  exact ⟨rfl, rfl⟩

/-- C6 amended: the JSON coder inspects the first byte of the body
verbatim, with no whitespace skipping: batch mode is selected exactly
when that byte is a left bracket, so a batch preceded by leading
whitespace is decoded in single message mode (and fails the struct
decode). -/
theorem c6_mode_from_first_byte (body : String) (c : Char) (rest : List Char)
    (h : body.toList = c :: rest) :
    (ReadRequests body).2.1 = (c == '[') := by
  unfold ReadRequests
  rw [h]
  simp only [readRequestsList]
  by_cases hc : c = '['
  · subst hc
    rw [if_pos rfl]
    cases hb : jsonReadBatchText ('[' :: rest) <;> simp
  · rw [if_neg hc]
    cases hb : jsonReadRequestText (c :: rest) <;> simp [hc]

/-- C6 witness: the amended theorem at a concrete batch body. -/
theorem c6_mode_from_first_byte_witness :
    (ReadRequests "[1]").2.1 = ('[' == '[') :=
  c6_mode_from_first_byte "[1]" '[' ['1', ']'] rfl

/-- Helper: the batch element loop is the order preserving filterMap of
the per-element fate — a struct decode failure contributes a nil entry, a
semantic validation failure contributes nothing, a valid element its
Request. -/
theorem jsonReadBatchElems_eq_filterMap (elems : List Json) :
    jsonReadBatchElems elems =
      elems.filterMap (fun e =>
        match decodeJsonRequest e with
        | none => some none
        | some jr =>
          match jsonRequestToRequest jr with
          | .error _ => none
          | .ok r => some (some r)) := by
  induction elems with
  | nil => rfl
  | cons e rest ih =>
    cases hd : decodeJsonRequest e with
    | none =>
      simp only [jsonReadBatchElems, hd, List.filterMap_cons, ih]
    | some jr =>
      cases ht : jsonRequestToRequest jr with
      | error err =>
        simp only [jsonReadBatchElems, hd, ht, List.filterMap_cons, ih]
      | ok r =>
        simp only [jsonReadBatchElems, hd, ht, List.filterMap_cons, ih]

/-- Helper: dispatching the decoded batch never panics and produces, in
order, an InvalidRequest response with nil id for every nil entry and the
dispatch outcome of every valid entry (nothing for notifications). -/
theorem dispatchAll_batch_filterMap (s : Server) (elems : List Json) :
    dispatchAll s (jsonReadBatchElems elems) =
      .ok (elems.filterMap (fun e =>
        match decodeJsonRequest e with
        | none => some (InvalidRequest.response none)
        | some jr =>
          match jsonRequestToRequest jr with
          | .error _ => none
          | .ok r => okOrNone (invokeRequest s r))) := by
  induction elems with
  | nil => rfl
  | cons e rest ih =>
    cases hd : decodeJsonRequest e with
    | none =>
      simp only [jsonReadBatchElems, hd, dispatchAll, ih, List.filterMap_cons]
    | some jr =>
      cases ht : jsonRequestToRequest jr with
      | error err =>
        simp only [jsonReadBatchElems, hd, ht, ih, List.filterMap_cons]
      | ok r =>
        obtain ⟨b, hb⟩ := toRequest_id_isSome jr r ht
        obtain ⟨o, ho⟩ := invokeRequest_isOk s r b hb
        cases o with
        | none =>
          simp only [jsonReadBatchElems, hd, ht, dispatchAll, ho, ih, List.filterMap_cons,
            okOrNone]
        | some x =>
          simp only [jsonReadBatchElems, hd, ht, dispatchAll, ho, ih, List.filterMap_cons,
            okOrNone]

/-- C7: in batch decoding an element that fails structural decode becomes
a nil entry that the engine answers with an InvalidRequest response (nil
id, no data) at its position, an element that parses but fails semantic
validation is silently dropped and yields no response, and the relative
order of the remaining elements is preserved: both the decoded sequence
and the dispatched responses are order preserving filterMaps of the
per-element fate. -/
theorem c7_batch_element_fates (s : Server) (elems : List Json) :
    (jsonReadBatchElems elems =
      elems.filterMap (fun e =>
        match decodeJsonRequest e with
        | none => some none
        | some jr =>
          match jsonRequestToRequest jr with
          | .error _ => none
          | .ok r => some (some r)))
    ∧ (dispatchAll s (jsonReadBatchElems elems) =
      .ok (elems.filterMap (fun e =>
        match decodeJsonRequest e with
        | none => some (InvalidRequest.response none)
        | some jr =>
          match jsonRequestToRequest jr with
          | .error _ => none
          | .ok r => okOrNone (invokeRequest s r)))) :=
  ⟨jsonReadBatchElems_eq_filterMap elems, dispatchAll_batch_filterMap s elems⟩

/-- Helper: the raw escaping is the identity on a list free of the
HTML-sensitive characters. -/
theorem htmlEscList_plain (l : List Char) (h : l.all htmlPlain = true) :
    htmlEscList l = String.mk l := by
  induction l with
  | nil => rfl
  | cons c t ih =>
    rw [List.all_cons, Bool.and_eq_true] at h
    have hc := of_decide_eq_true h.1
    unfold htmlEscList htmlEscChar
    rw [if_neg (fun he => hc (Or.inl he)),
      if_neg (fun he => hc (Or.inr (Or.inl he))),
      if_neg (fun he => hc (Or.inr (Or.inr (Or.inl he)))),
      if_neg (fun he => hc (Or.inr (Or.inr (Or.inr (Or.inl he))))),
      if_neg (fun he => hc (Or.inr (Or.inr (Or.inr (Or.inr he))))),
      ih h.2]
    rfl

/-- Helper: jsonRequestToRequest unfolded on a good version and a present
id member. -/
theorem toRequest_some (jr : JsonRequest) (j : Json) (hi : jr.i = some j)
    (hv : ¬jr.v ≠ jsonrpcVersion) :
    jsonRequestToRequest jr =
      match validateId j with
      | .error e => .error e
      | .ok bytes => .ok { method := jr.m, params := jr.p, id := some (some bytes) } := by
  unfold jsonRequestToRequest
  rw [if_neg hv, hi]

/-- Helper: validateId unfolded on a numeric id literal. -/
theorem validateId_num (lit : String) :
    validateId (.num lit) =
      match parseJsonNum lit.toList with
      | some p =>
        if p.overflows then Except.error (ParseError.withString jsonDecodeErrMsg)
        else Except.ok lit
      | none => Except.error (ParseError.withString jsonDecodeErrMsg) := rfl

/-- C8 counterexample: a request with the valid string id containing a
less-than sign is decoded with RequestID bytes of a quoted less-than
sign, but the written response spells the id with the unicode escape
u003c — the emitted bytes differ from the received bytes, refuting the
universal byte-for-byte round trip. -/
theorem c8_html_escaping_breaks_round_trip :
    (ReadRequests ltIdHttp.body).1 =
      [some { method := "noop", params := some (.arr []), id := some (some "\"<\"") }] ∧
      serveHTTP noopServer ltIdHttp =
        .ok { contentTypeDeclared := false, status := none,
              body := "\x7b\"jsonrpc\":\"2.0\",\"result\":null,\"id\":\"\\u003c\"\x7d\n" } := by
  exact ⟨rfl, rfl⟩

/-- C8 amended: the RequestID stores the received id bytes verbatim (raw
wire fragment, escapes kept), every response built for the request —
result or error alike — carries exactly those stored bytes, and the
encoder emits them through the RawMessage HTML escaping: bytes other
than the HTML-sensitive characters pass through unchanged, so an id free
of less-than, greater-than, ampersand, U+2028 and U+2029 round-trips
byte for byte (a numeric literal 1 is re-emitted as 1, never 1.0, and a
string id stays a quoted string), while those five characters are
rewritten to unicode escapes; a numeric id whose value overflows float64
fails the id unmarshal and is rejected at decode with a ParseError,
producing no response at all. -/
theorem c8_id_round_trip_escaped :
    (∀ (jr : JsonRequest) (j : Json) (raw : String) (r : Request),
        jr.i = some j → idRawOf j = some raw → jsonRequestToRequest jr = .ok r →
        ∀ (v : Json) (e : Error),
          (jsonResponseFor (NewResult r v)).i = raw ∧
            (jsonResponseFor (e.response (some r))).i = raw)
    ∧ (∀ (x : JsonResponse),
        JsonResponse.ser x = serResponseFront x ++ ",\"id\":" ++ htmlEscRaw x.i ++ "\x7d")
    ∧ (∀ (raw : String), raw.toList.all htmlPlain = true → htmlEscRaw raw = raw)
    ∧ (∀ (jr : JsonRequest) (lit : String) (p : NumParts),
        jr.v = jsonrpcVersion → jr.i = some (.num lit) →
        parseJsonNum lit.toList = some p → p.overflows = true →
        jsonRequestToRequest jr = .error (ParseError.withString jsonDecodeErrMsg)) := by
  refine ⟨?_, ?_, ?_, ?_⟩
  · intro jr j raw r hi hraw h v e
    by_cases hv : jr.v ≠ jsonrpcVersion
    · unfold jsonRequestToRequest at h
      rw [if_pos hv] at h
      exact absurd h (by simp)
    · rw [toRequest_some jr j hi hv] at h
      cases hval : validateId j with
      | error e2 =>
        rw [hval] at h
        exact absurd h (by simp)
      | ok bytes =>
        rw [hval] at h
        injection h with h
        have hbytes : bytes = raw := by
          cases j with
          | str s raw0 =>
            injection hraw with hraw
            rw [show validateId (.str s raw0) = .ok ("\"" ++ raw0 ++ "\"") from rfl] at hval
            injection hval with hval
            rw [← hval]
            exact hraw
          | num lit =>
            injection hraw with hraw
            rw [validateId_num lit] at hval
            split at hval
            · split at hval
              · exact absurd hval (by simp)
              · injection hval with hval
                rw [← hval]
                exact hraw
            · exact absurd hval (by simp)
          | null =>
            injection hraw with hraw
            rw [show validateId Json.null = .ok "null" from rfl] at hval
            injection hval with hval
            rw [← hval]
            exact hraw
          | bool b => exact absurd hraw (by simp [idRawOf])
          | arr xs => exact absurd hraw (by simp [idRawOf])
          | obj fs => exact absurd hraw (by simp [idRawOf])
        rw [← h, hbytes]
        exact ⟨rfl, rfl⟩
  · intro x
    rfl
  · intro raw hall
    unfold htmlEscRaw
    rw [htmlEscList_plain raw.toList hall]
    rfl
  · intro jr lit p hv hi hnum hov
    have hvne : ¬jr.v ≠ jsonrpcVersion := by simp [hv]
    have hvalerr : validateId (.num lit) = .error (ParseError.withString jsonDecodeErrMsg) := by
      rw [validateId_num lit, hnum]
      show (if p.overflows = true then Except.error (ParseError.withString jsonDecodeErrMsg)
            else Except.ok lit) = Except.error (ParseError.withString jsonDecodeErrMsg)
      rw [if_pos hov]
    rw [toRequest_some jr (.num lit) hi hvne, hvalerr]

set_option exponentiation.threshold 1100 in
set_option maxRecDepth 4000 in
/-- C8 witness: the amended theorem applied at the numeric id literal 1,
which is free of HTML-sensitive characters and so round-trips byte for
byte. -/
theorem c8_id_round_trip_escaped_witness :
    ((jsonResponseFor (NewResult rNumOne .null)).i = "1" ∧
        (jsonResponseFor (methodNotFound.response (some rNumOne))).i = "1") ∧
      htmlEscRaw "1" = "1" :=
  ⟨c8_id_round_trip_escaped.1 jrNumOne (.num "1") "1" rNumOne rfl rfl (by rfl) .null
      methodNotFound,
   c8_id_round_trip_escaped.2.2.1 "1" (by decide)⟩

/-- Helper: spanDigits consumes an all-digit list whole. -/
theorem spanDigits_all (l : List Char) (h : l.all Char.isDigit = true) :
    spanDigits l = (l, []) := by
  induction l with
  | nil => rfl
  | cons c r ih =>
    rw [List.all_cons, Bool.and_eq_true] at h
    unfold spanDigits
    rw [if_pos h.1, ih h.2]

/-- Helper: a digit character is not the decimal point. -/
theorem isDigit_ne_dot {c : Char} (h : c.isDigit = true) : ¬c = '.' := by
  intro he
  subst he
  exact absurd h (by decide)

/-- Helper: a digit character is not an exponent marker. -/
theorem isDigit_ne_exp {c : Char} (h : c.isDigit = true) : ¬(c = 'e' ∨ c = 'E') := by
  intro he
  rcases he with he | he <;> subst he <;> exact absurd h (by decide)

/-- Helper: on a nonempty all-digit tail, numTail can only succeed by
consuming the digits as the whole integer part, with empty fraction. -/
theorem numTail_digits (neg : Bool) (c : Char) (r : List Char) (p : NumParts)
    (hall : (c :: r).all Char.isDigit = true)
    (h : numTail neg (c :: r) = some p) :
    p.neg = neg ∧ digitsToNat p.ip = digitsToNat (c :: r) ∧ p.fp = [] := by
  rw [List.all_cons, Bool.and_eq_true] at hall
  obtain ⟨hc, hr⟩ := hall
  by_cases h0 : c = '0'
  · subst h0
    cases r with
    | nil =>
      have hok : numTail neg ['0'] = some ⟨neg, ['0'], [], 0⟩ := by rfl
      rw [hok] at h
      injection h with h
      rw [← h]
      exact ⟨rfl, rfl, rfl⟩
    | cons c2 r2 =>
      rw [List.all_cons, Bool.and_eq_true] at hr
      obtain ⟨hc2, hr2⟩ := hr
      have hnone : numTail neg ('0' :: c2 :: r2) = none := by
        simp [numTail, parseIntDigits, parseFracPart, parseExpPart,
          isDigit_ne_dot hc2, isDigit_ne_exp hc2]
      rw [hnone] at h
      cases h
  · have hspan := spanDigits_all r hr
    have hok : numTail neg (c :: r) = some ⟨neg, c :: r, [], 0⟩ := by
      simp [numTail, parseIntDigits, h0, hc, hspan, parseFracPart, parseExpPart]
    rw [hok] at h
    injection h with h
    rw [← h]
    exact ⟨rfl, rfl, rfl⟩

/-- Helper: a successful ParseInt syntax run means every character is a
sign or a digit. -/
theorem parseIntChars_chars (cs : List Char) (neg : Bool) (ds : List Char)
    (h : parseIntChars cs = some (neg, ds)) :
    ∀ x ∈ cs, x = '+' ∨ x = '-' ∨ x.isDigit = true := by
  cases cs with
  | nil => cases h
  | cons c t =>
    intro x hx
    rw [List.mem_cons] at hx
    rw [show parseIntChars (c :: t) =
        (if c = '+' then
          if ¬t.isEmpty ∧ t.all Char.isDigit then some (false, t) else none
        else if c = '-' then
          if ¬t.isEmpty ∧ t.all Char.isDigit then some (true, t) else none
        else
          if ¬(c :: t).isEmpty ∧ (c :: t).all Char.isDigit then some (false, c :: t)
          else none) from rfl] at h
    by_cases hp : c = '+'
    · rw [if_pos hp] at h
      split at h
      · rename_i hcnd
        rcases hx with hx | hx
        · exact Or.inl (hx.trans hp)
        · exact Or.inr (Or.inr ((List.all_eq_true.mp hcnd.2) x hx))
      · cases h
    · rw [if_neg hp] at h
      by_cases hm : c = '-'
      · rw [if_pos hm] at h
        split at h
        · rename_i hcnd
          rcases hx with hx | hx
          · exact Or.inr (Or.inl (hx.trans hm))
          · exact Or.inr (Or.inr ((List.all_eq_true.mp hcnd.2) x hx))
        · cases h
      · rw [if_neg hm] at h
        split at h
        · rename_i hcnd
          have hall := List.all_eq_true.mp hcnd.2
          rcases hx with hx | hx
          · exact Or.inr (Or.inr (hall x (by rw [List.mem_cons]; exact Or.inl hx)))
          · exact Or.inr (Or.inr (hall x (by rw [List.mem_cons]; exact Or.inr hx)))
        · cases h

/-- Helper: the leading minus match of parseJsonNum falls through for any
other head character. -/
theorem parseJsonNum_not_minus (c : Char) (t : List Char) (hm : ¬c = '-') :
    parseJsonNum (c :: t) = numTail false (c :: t) := by
  unfold parseJsonNum
  split
  · rename_i heq
    injection heq with h1 h2
    exact absurd h1 hm
  · rfl

/-- Helper: when the ParseInt syntax and the JSON number grammar both
accept the same characters, they agree on the sign and the digits, and
the JSON reading has no fraction part. -/
theorem intJsonAgree (cs : List Char) (neg : Bool) (ds : List Char) (p : NumParts)
    (hint : parseIntChars cs = some (neg, ds)) (hjson : parseJsonNum cs = some p) :
    p.neg = neg ∧ digitsToNat p.ip = digitsToNat ds ∧ p.fp = [] := by
  cases cs with
  | nil => cases hint
  | cons c t =>
    rw [show parseIntChars (c :: t) =
        (if c = '+' then
          if ¬t.isEmpty ∧ t.all Char.isDigit then some (false, t) else none
        else if c = '-' then
          if ¬t.isEmpty ∧ t.all Char.isDigit then some (true, t) else none
        else
          if ¬(c :: t).isEmpty ∧ (c :: t).all Char.isDigit then some (false, c :: t)
          else none) from rfl] at hint
    by_cases hp : c = '+'
    · subst hp
      have hnone : parseJsonNum ('+' :: t) = none := by rfl
      rw [hnone] at hjson
      cases hjson
    · rw [if_neg hp] at hint
      by_cases hm : c = '-'
      · subst hm
        rw [if_pos rfl] at hint
        split at hint
        · rename_i hcnd
          injection hint with hint
          obtain ⟨h1, h2⟩ := (Prod.mk.injEq true t neg ds).mp hint
          subst h1
          subst h2
          rw [show parseJsonNum ('-' :: t) = numTail true t from rfl] at hjson
          cases t with
          | nil => exact absurd rfl hcnd.1
          | cons c2 t2 => exact numTail_digits true c2 t2 p hcnd.2 hjson
        · cases hint
      · rw [if_neg hm] at hint
        split at hint
        · rename_i hcnd
          injection hint with hint
          obtain ⟨h1, h2⟩ := (Prod.mk.injEq false (c :: t) neg ds).mp hint
          subst h1
          rw [parseJsonNum_not_minus c t hm] at hjson
          rw [← h2]
          exact numTail_digits false c t p hcnd.2 hjson
        · cases hint

/-- Helper: CastInt unfolded on a successful ParseInt syntax run. -/
theorem CastInt_parse (s : String) (neg : Bool) (ds : List Char)
    (hic : parseIntChars s.toList = some (neg, ds)) :
    CastInt s =
      if int64Min ≤ intValOf neg ds ∧ intValOf neg ds ≤ int64Max then (intValOf neg ds, true)
      else ((if neg then int64Min else int64Max), false) := by
  unfold CastInt
  rw [hic]

/-- Helper: CastInt unfolded on a ParseInt syntax failure. -/
theorem CastInt_noparse (s : String) (hic : parseIntChars s.toList = none) :
    CastInt s = (0, false) := by
  unfold CastInt
  rw [hic]

set_option exponentiation.threshold 1100 in
set_option maxRecDepth 4000 in
/-- C9 counterexample: the literal 1e999 is a syntactically valid JSON
number, yet the float cast fails (strconv.ParseFloat reports a range
error), refuting the first conjunct of the claim. -/
theorem c9_float_cast_fails_in_range :
    isJsonNumber "1e999" = true ∧ CastFloat64Ok "1e999" = false := by
  decide

/-- C9 amended: the float cast succeeds for every syntactically valid JSON
number literal whose exact value stays below the binary64 overflow
threshold (literals such as 1e999 fail the cast); the integer cast
succeeds only for a pure optionally signed digit run — so never for a
literal with a fractional part — whose value fits the host signed range,
and on an out-of-range digit run it fails closed, returning the saturated
bound instead of wrapping; the unsigned cast fails for every literal with
a strictly negative value. -/
theorem c9_number_cast_semantics :
    (∀ (s : String) (p : NumParts),
        parseJsonNum s.toList = some p → p.overflows = false → CastFloat64Ok s = true)
    ∧ (∀ (s : String) (v : Int), CastInt s = (v, true) →
        ('.' ∉ s.toList ∧ int64Min ≤ v ∧ v ≤ int64Max))
    ∧ (∀ (s : String) (neg : Bool) (ds : List Char),
        parseIntChars s.toList = some (neg, ds) →
        ¬(int64Min ≤ intValOf neg ds ∧ intValOf neg ds ≤ int64Max) →
        CastInt s = ((if neg then int64Min else int64Max), false))
    ∧ (∀ (s : String) (p : NumParts),
        parseJsonNum s.toList = some p → p.isNegValue = true → (CastUint s).2 = false) := by
  refine ⟨?_, ?_, ?_, ?_⟩
  · intro s p hp hov
    unfold CastFloat64Ok
    rw [hp]
    show (!p.overflows) = true
    rw [hov]
    rfl
  · intro s v h
    cases hic : parseIntChars s.toList with
    | none =>
      rw [CastInt_noparse s hic] at h
      exact absurd h (by simp)
    | some nd =>
      obtain ⟨neg, ds⟩ := nd
      rw [CastInt_parse s neg ds hic] at h
      split at h
      · rename_i hrange
        obtain ⟨h1, h2⟩ := (Prod.mk.injEq (intValOf neg ds) true v true).mp h
        refine ⟨?_, ?_, ?_⟩
        · intro hmem
          rcases parseIntChars_chars s.toList neg ds hic '.' hmem with hx | hx | hx
          · exact absurd hx (by decide)
          · exact absurd hx (by decide)
          · exact absurd hx (by decide)
        · rw [← h1]
          exact hrange.1
        · rw [← h1]
          exact hrange.2
      · exact absurd h (by simp)
  · intro s neg ds hic hrange
    rw [CastInt_parse s neg ds hic, if_neg hrange]
  · intro s p hp hneg
    rw [NumParts.isNegValue, Bool.and_eq_true] at hneg
    obtain ⟨hn, hm0⟩ := hneg
    have hm0 : p.mantissa ≠ 0 := of_decide_eq_true hm0
    cases hic : parseIntChars s.toList with
    | none =>
      simp [CastUint, CastInt_noparse s hic]
    | some nd =>
      obtain ⟨neg, ds⟩ := nd
      obtain ⟨h1, h2, h3⟩ := intJsonAgree s.toList neg ds p hic hp
      have hnt : neg = true := by rw [← h1]; exact hn
      subst hnt
      have hds : digitsToNat ds ≠ 0 := by
        have hmant : p.mantissa = digitsToNat p.ip := by
          unfold NumParts.mantissa
          rw [h3, List.append_nil]
        rw [hmant, h2] at hm0
        exact hm0
      have hvneg : intValOf true ds < 0 := by
        have hlt : (0 : Int) < (digitsToNat ds : Int) := by
          exact_mod_cast Nat.pos_of_ne_zero hds
        unfold intValOf
        rw [if_pos rfl]
        omega
      by_cases hrange : int64Min ≤ intValOf true ds ∧ intValOf true ds ≤ int64Max
      · have hCast : CastInt s = (intValOf true ds, true) := by
          rw [CastInt_parse s true ds hic, if_pos hrange]
        simp [CastUint, hCast, hvneg]
      · have hCast : CastInt s = (int64Min, false) := by
          rw [CastInt_parse s true ds hic, if_neg hrange]
          rfl
        have hminneg : int64Min < 0 := by decide
        simp [CastUint, hCast, hminneg]

set_option exponentiation.threshold 1100 in
set_option maxRecDepth 4000 in
/-- C9 witness: the amended theorem applied at the literals 2 and -2. -/
theorem c9_number_cast_semantics_witness :
    CastFloat64Ok "2" = true ∧ (CastUint "-2").2 = false :=
  ⟨c9_number_cast_semantics.1 "2" ⟨false, ['2'], [], 0⟩ (by decide) (by decide),
   c9_number_cast_semantics.2.2.2 "-2" ⟨true, ['2'], [], 0⟩ (by decide) (by decide)⟩

/-- C10: every Request the JSON coder decode produces has a non-nil ID
pointer (an absent wire id yields a pointer to a nil RequestID), so the
unconditional ID dereference in the per-request dispatch rule never
panics on coder produced requests; a Request with a nil ID pointer, as a
misbehaving coder could hand over, makes the dispatch panic. -/
theorem c10_id_pointer_never_nil :
    (∀ (jr : JsonRequest) (r : Request),
        jsonRequestToRequest jr = .ok r → r.id.isSome = true)
    ∧ (∀ (s : Server) (req : Request) (b : Option String),
        req.id = some b → ∃ o, invokeRequest s req = .ok o)
    ∧ invokeRequest noopServer crashReq = .panicked nilDerefMsg := by
  refine ⟨?_, ?_, ?_⟩
  · intro jr r h
    obtain ⟨b, hb⟩ := toRequest_id_isSome jr r h
    rw [hb]
    rfl
  · intro s req b h
    exact invokeRequest_isOk s req b h
  · rfl

/-- C10 witness: the theorem applied at the concrete id-less jsonRequest
and at the Request it decodes to. -/
theorem c10_id_pointer_never_nil_witness :
    rNoId.id.isSome = true ∧ ∃ o, invokeRequest [] rNoId = .ok o :=
  ⟨c10_id_pointer_never_nil.1 jrNoId rNoId rfl,
   c10_id_pointer_never_nil.2.1 [] rNoId none rfl⟩
